import Mathlib

/-!
Verification development for the BTC paper-trading agent.

Shallow embedding of the decision/guardrail core:
  * `app/engine.py`      — portfolio state, `paper_fill`, trade gate, order builder
  * `app/advisor.py`     — decision normalizer `coerce_to_schema`
  * `app/guardrails_regime.py` — regime detector and `regime_gate`
  * `app/strategies/dca.py`    — DCA trigger logic

Modelling conventions:
  * Python floats are embedded as exact rationals `ℚ` (the epsilon tolerances
    1e-8 / 1e-12 from the source are kept as literal rationals).
  * Optional values (`None`) become `Option`.
  * File/ledger side effects become explicit state passing: `paper_fill`
    returns the new portfolio state and the appended trade log.
  * Timestamps are passed in explicitly (the source reads the wall clock).
-/

namespace BtcAgent

/-- Persisted portfolio state (`portfolio_state.json` in `app/engine.py`).
`last_dca_ts` holds the parsed timestamp in seconds: `none` models a missing,
empty or unparseable value (`_parse_iso_aware` returning `None`). -/
structure PState where
  cash_usd : ℚ
  btc : ℚ
  last_dca_price : Option ℚ
  last_dca_ts : Option ℚ
  trades_today : ℕ
  last_trade_ts : Option ℚ
  last_side : Option String
  last_conf : Option ℚ
deriving Repr, DecidableEq

/-- The default state written by `_init_files` and returned by the
`load_state` exception fallback: $10k cash, no position, all markers cleared. -/
def defaultState : PState :=
  { cash_usd := 10000, btc := 0, last_dca_price := none, last_dca_ts := none,
    trades_today := 0, last_trade_ts := none, last_side := none, last_conf := none }

/-- One appended trade-log row (`trades_with_balances.csv` / `trades.csv`);
values are kept exact (the CSV writers only round for display). -/
structure TradeRec where
  ts : ℤ
  side : String
  reason : String
  price : ℚ
  qty_btc : ℚ
  fee_usd : ℚ
  note : String
deriving Repr, DecidableEq

/-- Outcome of `paper_fill`: the Python function returns
`(False, reason_string)` or `(True, fill_info_dict)`. -/
inductive FillResult where
  | fail (reason : String)
  | ok (rec : TradeRec)
deriving Repr, DecidableEq

def FillResult.isOk : FillResult → Bool
  | .ok _ => true
  | .fail _ => false

/-- ASCII lowercase, modelling Python `str.lower()` on the side tags. -/
def strLower (s : String) : String := ⟨s.data.map Char.toLower⟩

/-- ASCII uppercase, modelling Python `str.upper()` on the source tags. -/
def strUpper (s : String) : String := ⟨s.data.map Char.toUpper⟩

/-- Space trim, modelling Python `str.strip()` on the source tags. -/
def strTrim (s : String) : String :=
  ⟨((s.data.dropWhile (· = ' ')).reverse.dropWhile (· = ' ')).reverse⟩

/-- Cash epsilon used by the BUY guard in `paper_fill` (1e-8 USD). -/
def epsUsd : ℚ := 1 / 100000000

/-- Position epsilon used by the SELL guard in `paper_fill` (1e-12 BTC). -/
def epsBtc : ℚ := 1 / 1000000000000

/-- Result triple of a `paper_fill` call: outcome, persisted state, trade log. -/
structure FillOutcome where
  result : FillResult
  state : PState
  log : List TradeRec
deriving Repr, DecidableEq

/-- `paper_fill` from `app/engine.py` (lines 142–212).  The source loads the
state, normalizes side/reason, computes `notional = price*qty` and
`fee = notional*fee_bps/10000`, applies the cash/position guard, and only on
success appends the ledger rows and persists the mutated state; on any failure
it returns before any write, so state and log come back unchanged. -/
def paperFill (side reason : String) (price qty_btc fee_bps : ℚ) (note : String)
    (ts : ℤ) (s : PState) (log : List TradeRec) : FillOutcome :=
  -- notional = price * qty_btc, fee_usd = notional * (fee_bps / 10000), inlined
  if strLower side = "buy" then
    if s.cash_usd + epsUsd < price * qty_btc + price * qty_btc * (fee_bps / 10000) then
      ⟨.fail "Insufficient cash", s, log⟩
    else
      ⟨.ok ⟨ts, strLower side, strUpper (strTrim reason), price, qty_btc,
            price * qty_btc * (fee_bps / 10000), note⟩,
       { s with
           cash_usd := s.cash_usd - (price * qty_btc + price * qty_btc * (fee_bps / 10000)),
           btc := s.btc + qty_btc },
       log ++ [⟨ts, strLower side, strUpper (strTrim reason), price, qty_btc,
                price * qty_btc * (fee_bps / 10000), note⟩]⟩
  else if strLower side = "sell" then
    if s.btc + epsBtc < qty_btc then
      ⟨.fail "Insufficient BTC", s, log⟩
    else
      ⟨.ok ⟨ts, strLower side, strUpper (strTrim reason), price, qty_btc,
            price * qty_btc * (fee_bps / 10000), note⟩,
       { s with
           btc := s.btc - qty_btc,
           cash_usd := s.cash_usd + (price * qty_btc - price * qty_btc * (fee_bps / 10000)) },
       log ++ [⟨ts, strLower side, strUpper (strTrim reason), price, qty_btc,
                price * qty_btc * (fee_bps / 10000), note⟩]⟩
  else
    ⟨.fail ("Unknown side: " ++ strLower side), s, log⟩

/-- A trade request fed to the ledger (side, price, quantity, fee rate). -/
structure Trade where
  side : String
  price : ℚ
  qty : ℚ
  fee_bps : ℚ
deriving Repr, DecidableEq

/-- Fold a sequence of trade requests through `paper_fill`
(failed trades leave the state untouched, as in the source). -/
def applyTrades (s : PState) (ts : List Trade) : PState :=
  ts.foldl (fun st t => (paperFill t.side "LLM" t.price t.qty t.fee_bps "" 0 st []).state) s

/-- Mark-to-market equity of a state at a price: `cash + btc*price`. -/
def equity (s : PState) (price : ℚ) : ℚ := s.cash_usd + s.btc * price

/-- `GateContext` from `app/engine.py` (lines 240–253). -/
structure GateContext where
  now_ts : ℚ
  last_ts : Option ℚ
  last_side : Option String
  last_conf : Option ℚ
  rsi : Option ℚ
  atr : Option ℚ
  spread_bps : Option ℚ
  position_usd : ℚ
  max_position_usd : ℚ
  max_spread_bps : ℚ
  min_conf : ℚ
  allow_side_switch : Bool
deriving Repr, DecidableEq

/-- `_adaptive_cooldown_sec` (engine.py 255–259): a falsy ATR (`None` or `0`)
gives 10 s; otherwise `int(max(5, min(60, atr / 2.0)))`.  The clamp result is
`≥ 5 > 0`, so Python `int` truncation coincides with the floor.  `ℚ` has no
non-finite values, so the `math.isfinite` guard is vacuous here. -/
def adaptiveCooldownSec (atr : Option ℚ) : ℤ :=
  match atr with
  | none => 10
  | some a => if a = 0 then 10 else ⌊max 5 (min 60 (a / 2))⌋

/-- Spread-quality check of `allow_trade` step 3: blocks only when a spread is
present and exceeds the cap. -/
def spreadTooWide (ctx : GateContext) : Bool :=
  match ctx.spread_bps with
  | none => false
  | some sp => decide (ctx.max_spread_bps < sp)

/-- Flip-hysteresis escape of `allow_trade` step 5:
`allow_side_switch and (last_side or side) != side and last_conf is not None
and conf >= last_conf + 0.10`. -/
def flipEscape (ctx : GateContext) (side : String) (conf : ℚ) : Bool :=
  ctx.allow_side_switch &&
    decide (ctx.last_side.getD side ≠ side) &&
    (match ctx.last_conf with
     | none => false
     | some lc => decide (lc + 1/10 ≤ conf))

/-- `allow_trade` (engine.py 261–295).  Diagnostic strings are reduced to
fixed tags (the source interpolates numbers into them); the returned list
plays the role of `reason_out`.  The min-notional check is done by the caller
(source comment, step 4), so `notional_usd` is unused here as in the source. -/
def allowTrade (ctx : GateContext) (side : String) (conf : ℚ)
    (_notional_usd : ℚ) : Bool × List String :=
  if conf < ctx.min_conf then (false, ["conf below min_conf"])
  else if side = "buy" ∧ ctx.max_position_usd ≤ ctx.position_usd then
    (false, ["position at or above cap"])
  else if spreadTooWide ctx then (false, ["spread above max_spread_bps"])
  else
    match ctx.last_ts with
    | none => (true, [])
    | some lastTs =>
        if max 0 (ctx.now_ts - lastTs) < ((adaptiveCooldownSec ctx.atr : ℤ) : ℚ) then
          if flipEscape ctx side conf then (true, [])
          else (false, ["cooldown in effect"])
        else (true, [])

/-- Result of `build_order`: `dict(size_usd, stop, take_profit)`. -/
structure OrderSpec where
  size_usd : ℚ
  stop : ℚ
  take_profit : ℚ
deriving Repr, DecidableEq

/-- ATR fallback of `build_order`: `a = atr if (atr and atr > 0) else 50.0`. -/
def fallbackAtr (atr : Option ℚ) : ℚ :=
  match atr with
  | none => 50
  | some x => if 0 < x then x else 50

/-- `build_order` (engine.py 299–318): `k = max(0.2, min(1.0, (conf-0.45)/0.55))`,
`size_usd = max(10.0, min(max_trade, k*max_trade))`, ATR stop/TP with mirrored
signs for the non-buy side.  `maxTrade` is the `MAX_TRADE_USD` env value. -/
def buildOrder (side : String) (price conf : ℚ) (atr : Option ℚ)
    (maxTrade : ℚ) : OrderSpec :=
  if side = "buy" then
    ⟨max 10 (min maxTrade (max (1/5) (min 1 ((conf - 9/20) / (11/20))) * maxTrade)),
     price - 6/5 * fallbackAtr atr,
     price + 9/5 * fallbackAtr atr⟩
  else
    ⟨max 10 (min maxTrade (max (1/5) (min 1 ((conf - 9/20) / (11/20))) * maxTrade)),
     price + 6/5 * fallbackAtr atr,
     price - 9/5 * fallbackAtr atr⟩

/-- Clamp into `[lo, hi]` with the floor taking priority, matching the
`max(lo, min(hi, x))` shape used by the sizer. -/
def clamp (lo hi x : ℚ) : ℚ := max lo (min hi x)

/-- The confidence→size multiplier of `build_order`. -/
def confMult (conf : ℚ) : ℚ := max (1/5) (min 1 ((conf - 9/20) / (11/20)))

/-- Concrete gate context used by the C4 witness: 5 s after a BUY at
confidence 0.60, ATR 40 (cooldown 20 s), side switching allowed. -/
def gateCtxExample : GateContext :=
  ⟨100, some 95, some "buy", some (3/5), none, some 40, none, 0, 3000, 12, 9/20, true⟩

/-- Environment knobs read by `regime_gate`
(`REGIME_CHOP_ALLOW_BUY` / `REGIME_CHOP_RSI_MAX` / `REGIME_CHOP_CONF_MIN`). -/
structure ChopEnv where
  allow_buy : Bool
  rsi_max : ℚ
  conf_min : ℚ
deriving Repr, DecidableEq

/-- The default environment: soft override disabled, RSI cap 35, conf 0.60. -/
def defaultChopEnv : ChopEnv := ⟨false, 35, 3/5⟩

/-- `rsi_ok` inside `regime_gate`: an unreadable RSI does not block. -/
def chopRsiOk (metricsRsi : Option ℚ) (rsiMax : ℚ) : Bool :=
  match metricsRsi with
  | none => true
  | some r => decide (r ≤ rsiMax)

/-- `regime_gate` (guardrails_regime.py 279–317).  `action`/`confidence` are
the decision's fields (`str(decision.get("action","")).upper()` and the
0.0-defaulted confidence); `metricsRsi` is the parsed `metrics["rsi14"]`
(`none` when absent or unreadable).  Only the chop+BUY combination is ever
gated; every other regime/side pair returns `(True, "ok")`. -/
def regimeGate (env : ChopEnv) (action : String) (confidence : ℚ)
    (regimeLabel : String) (metricsRsi : Option ℚ) : Bool × String :=
  if regimeLabel = "chop" ∧ strUpper action = "BUY" then
    if env.allow_buy then
      if chopRsiOk metricsRsi env.rsi_max = true ∧ env.conf_min ≤ confidence then
        (true, "chop soft-override")
      else
        (false, "chop needs rsi and conf")
    else
      (false, "chop prefers HOLD | side=BUY")
  else
    (true, "ok")

/-- DCA configuration dict (`DCA_DROP_PCT`, `DCA_MIN_COOLDOWN_MIN`,
`DCA_LOT_USD`) as built in `runner.run_once`. -/
structure DcaCfg where
  drop_pct : ℚ
  min_cooldown_min : ℤ
  lot_usd : ℚ
deriving Repr, DecidableEq

/-- One yielded DCA intent dict `{"type","qty","lot_usd"}`. -/
structure DcaIntent where
  type : String
  qty : ℚ
  lot_usd : ℚ
deriving Repr, DecidableEq

/-- `_drop_hit` (dca.py 32–39): a falsy anchor (`None` or `0`) allows the
first DCA; otherwise require `price ≤ last * (1 - drop_pct/100)`. -/
def dropHit (st : PState) (price dropPct : ℚ) : Bool :=
  match st.last_dca_price with
  | none => true
  | some lp => if lp = 0 then true else decide (price ≤ lp * (1 - dropPct / 100))

/-- `_cooldown_ok` (dca.py 14–30): `last_dca_ts` missing/unparseable allows;
otherwise require `now - last ≥ min_minutes` (timestamps in seconds). -/
def cooldownOk (st : PState) (now : ℚ) (minMinutes : ℤ) : Bool :=
  match st.last_dca_ts with
  | none => true
  | some last => decide ((minMinutes : ℚ) * 60 ≤ now - last)

/-- `dca_actions` (dca.py 41–47): when both the drop and cooldown checks pass
and the configured lot is positive, yield exactly one BUY of
`lot_usd / price` BTC. -/
def dcaActions (st : PState) (price : ℚ) (cfg : DcaCfg) (now : ℚ) : List DcaIntent :=
  if dropHit st price cfg.drop_pct && cooldownOk st now cfg.min_cooldown_min then
    if 0 < cfg.lot_usd then [⟨"BUY", cfg.lot_usd / price, cfg.lot_usd⟩] else []
  else
    []

/-- Dynamically-typed Python value, as far as `coerce_to_schema` inspects it:
`None`, bool, number (int/float collapsed into `ℚ`), string, list, and
string-keyed dict. -/
inductive PyVal where
  | none
  | bool (b : Bool)
  | num (q : ℚ)
  | str (s : String)
  | list (xs : List PyVal)
  | dict (kvs : List (String × PyVal))

/-- Python truthiness for the values above. -/
def PyVal.truthy : PyVal → Bool
  | .none => false
  | .bool b => b
  | .num q => decide (q ≠ 0)
  | .str s => decide (s ≠ "")
  | .list xs => !xs.isEmpty
  | .dict kvs => !kvs.isEmpty

/-- `isinstance(x, (int, float))` plus the numeric value `float(x)` yields
(`bool` is an `int` subclass in Python, so `True ↦ 1`, `False ↦ 0`). -/
def PyVal.asNum : PyVal → Option ℚ
  | .num q => some q
  | .bool b => some (if b then 1 else 0)
  | _ => Option.none

/-- `float(x)` as used on the `size_usd`/`stop_atr_k` fields: succeeds on
numbers and bools, raises otherwise.  (Python would also accept numeric
strings; string-valued fields are excluded by hypothesis where this
matters.) -/
def pyFloat (v : PyVal) : Except Unit ℚ :=
  match v.asNum with
  | some q => .ok q
  | _ => .error ()

/-- RSI-derived state fallback of `coerce_to_schema`:
`"dip" if rsi < 32 else ("peak" if rsi > 70 else "consolidation")`. -/
def stateFromRsi (rsi : ℚ) : String :=
  if rsi < 32 then "dip" else if 70 < rsi then "peak" else "consolidation"

/-- Action fallback of `coerce_to_schema`:
`"buy" if state=="dip" else ("sell" if state=="peak" else "hold")`. -/
def defaultAction (state : String) : String :=
  if state = "dip" then "buy" else if state = "peak" then "sell" else "hold"

/-- `dec.get("state") or dec.get("regime")` with Python `or` truthiness. -/
def rawState (kvs : List (String × PyVal)) : PyVal :=
  let a := (kvs.lookup "state").getD .none
  if a.truthy then a else (kvs.lookup "regime").getD .none

/-- The `out["state"]` computation: the raw state/regime value, kept when it
is one of the three state strings, otherwise derived from RSI. -/
def coerceState (kvs : List (String × PyVal)) (rsi : ℚ) : String :=
  match rawState kvs with
  | .str s => if s = "peak" ∨ s = "dip" ∨ s = "consolidation" then s else stateFromRsi rsi
  | _ => stateFromRsi rsi

/-- The `out["action"]` computation: the raw action when it is one of the
three action strings, otherwise derived from the coerced state. -/
def coerceAction (kvs : List (String × PyVal)) (state : String) : String :=
  match kvs.lookup "action" with
  | some (.str a) => if a = "buy" ∨ a = "sell" ∨ a = "hold" then a else defaultAction state
  | _ => defaultAction state

/-- The `out["confidence"]` computation: non-numeric confidence falls back to
a state-dependent default (0.66 for peak/dip, 0.55 otherwise), then the value
is clamped into `[0, 1]` by `max(0.0, min(1.0, float(conf)))`. -/
def coerceConfidence (kvs : List (String × PyVal)) (state : String) : ℚ :=
  max 0 (min 1 (match (kvs.lookup "confidence").bind PyVal.asNum with
    | some q => q
    | _ => if state = "peak" ∨ state = "dip" then 33/50 else 11/20))

/-- `coerce_to_schema` (advisor.py 27–50).  Non-dict input returns `None`
(line 29).  `llmSizeUsd` / `llmStopAtrK` are the numeric strategy defaults
(`strat["llm_size_usd"]`, `strat["llm_stop_atr_k_default"]`); `rsi` is the
numeric `obs["rsi14"]` (default 50).  `.error ()` models the `float(...)`
calls raising on a non-numeric field value. -/
def coerceToSchema (dec : PyVal) (llmSizeUsd llmStopAtrK rsi : ℚ) :
    Except Unit PyVal :=
  match dec with
  | .dict kvs =>
      let state := coerceState kvs rsi
      let action := coerceAction kvs state
      let confidence := coerceConfidence kvs state
      let sizeV := (kvs.lookup "size_usd").getD (.num llmSizeUsd)
      let sakV := (kvs.lookup "stop_atr_k").getD (.num llmStopAtrK)
      let reasonV := (kvs.lookup "reason_short").getD (.str (state ++ " → " ++ action))
      let flagsV := (kvs.lookup "risk_flags").getD (.list [.str state])
      match pyFloat sizeV with
      | .error _ => .error ()
      | .ok sz =>
          match sakV with
          | .none =>
              .ok (.dict [("state", .str state), ("action", .str action),
                          ("confidence", .num confidence), ("size_usd", .num sz),
                          ("stop_atr_k", .none), ("reason_short", reasonV),
                          ("risk_flags", flagsV)])
          | v =>
              match pyFloat v with
              | .error _ => .error ()
              | .ok sk =>
                  .ok (.dict [("state", .str state), ("action", .str action),
                              ("confidence", .num confidence), ("size_usd", .num sz),
                              ("stop_atr_k", .num sk), ("reason_short", reasonV),
                              ("risk_flags", flagsV)])
  | _ => .ok .none

/-- String shape test for `risk_flags` items. -/
def isStrB : PyVal → Bool
  | .str _ => true
  | _ => false

/-- The property names allowed by `DECISION_SCHEMA`
(`additionalProperties: false`). -/
def allowedKeys : List String :=
  ["state", "action", "confidence", "size_usd", "stop_atr_k", "reason_short", "risk_flags"]

/-- Schema check for the `state` enum (absent handled by the required check). -/
def checkState : Option PyVal → Bool
  | some (.str s) => ["peak", "dip", "consolidation"].contains s
  | some _ => false
  | Option.none => true

/-- Schema check for the `action` enum. -/
def checkAction : Option PyVal → Bool
  | some (.str a) => ["buy", "sell", "hold"].contains a
  | some _ => false
  | Option.none => true

/-- Schema check for `confidence`: a number in `[0,1]` (jsonschema counts
bools as non-numbers). -/
def checkConfidence : Option PyVal → Bool
  | some (.num q) => decide (0 ≤ q ∧ q ≤ 1)
  | some _ => false
  | Option.none => true

/-- Schema check for a plain `number` field. -/
def checkNumber : Option PyVal → Bool
  | some (.num _) => true
  | some _ => false
  | Option.none => true

/-- Schema check for a `number | null` field (`stop_atr_k`). -/
def checkNumberOrNull : Option PyVal → Bool
  | some (.num _) => true
  | some .none => true
  | some _ => false
  | Option.none => true

/-- Schema check for a `string` field. -/
def checkString : Option PyVal → Bool
  | some (.str _) => true
  | some _ => false
  | Option.none => true

/-- Schema check for an array-of-strings field. -/
def checkStrArray : Option PyVal → Bool
  | some (.list xs) => xs.all isStrB
  | some _ => false
  | Option.none => true

/-- `DECISION_SCHEMA` from `app/advisor.py` as a decidable check: an object
with required `state`/`action`/`confidence`, only the seven allowed
properties, enum/number/string/array shapes as declared. -/
def decisionSchemaValid : PyVal → Bool
  | .dict kvs =>
      (kvs.lookup "state").isSome && (kvs.lookup "action").isSome &&
      (kvs.lookup "confidence").isSome &&
      kvs.all (fun p => allowedKeys.contains p.1) &&
      checkState (kvs.lookup "state") && checkAction (kvs.lookup "action") &&
      checkConfidence (kvs.lookup "confidence") &&
      checkNumber (kvs.lookup "size_usd") &&
      checkNumberOrNull (kvs.lookup "stop_atr_k") &&
      checkString (kvs.lookup "reason_short") &&
      checkStrArray (kvs.lookup "risk_flags")
  | _ => false

/-- The default portfolio-state JSON document written by `_init_files` and
produced by the `load_state` exception fallback (both carry these nine
fields: cash 10000, btc 0, every marker and counter cleared). -/
def defaultStateJson : PyVal :=
  .dict [("cash_usd", .num 10000), ("btc", .num 0), ("last_dca_price", .none),
         ("active_swing", .none), ("trades_today", .num 0),
         ("trades_today_date", .none), ("last_trade_ts", .none),
         ("last_side", .none), ("last_conf", .none)]

/-- Outcome of reading the persisted state file, as seen by `load_state`
(engine.py 66–80): the file may be absent (then `_init_files` first writes
the default document), may hold bytes `json.loads` rejects, or may hold
bytes parsing as an arbitrary JSON value — `json.loads` also succeeds on
content that is no state object at all (`[]`, `{}`, `null`, `42`), and
`load_state` performs no validation on the parsed value. -/
inductive StateFile where
  | absent
  | garbage
  | parsed (v : PyVal)

/-- `load_state`: absent file → `_init_files` writes the default document and
the re-read parses it back; unparseable bytes → the `except` fallback
returns the same defaults; any JSON-parseable content is returned as-is,
unvalidated.  Total by construction (the source catches every exception). -/
def loadState : StateFile → PyVal
  | .absent => defaultStateJson
  | .garbage => defaultStateJson
  | .parsed v => v

/-- One 1-minute input bar for `detect_regime_from_1m`: timestamp in minutes
(UTC) plus optional OHLCV values (`none` models a NaN cell; `_ensure_ohlc`
guarantees the columns themselves exist). -/
structure Bar1m where
  t : ℤ
  mOpen : Option ℚ
  mHigh : Option ℚ
  mLow : Option ℚ
  mClose : Option ℚ
  mVol : Option ℚ

/-- One aggregated hourly bar (all NaN-free after `dropna`). -/
structure HourBar where
  t : ℤ
  hOpen : ℚ
  hHigh : ℚ
  hLow : ℚ
  hClose : ℚ
  hVol : ℚ
deriving Repr, DecidableEq

/-- Right-closed, right-labelled hour bucket of a minute timestamp:
minute `t` lands in the bucket `(60(h-1), 60h]` with `h = ⌈t/60⌉`, computed
as the floor division `(t + 59) / 60` (for integers, `⌈t/n⌉ = ⌊(t+n-1)/n⌋`). -/
def hourOf (t : ℤ) : ℤ := (t + 59).ediv 60

/-- `first` aggregation: first non-NaN value (pandas GroupBy.first). -/
def firstSome (l : List (Option ℚ)) : Option ℚ := (l.filterMap id).head?

/-- `last` aggregation: last non-NaN value. -/
def lastSome (l : List (Option ℚ)) : Option ℚ := (l.filterMap id).getLast?

/-- `max` aggregation over the non-NaN values. -/
def maxSome (l : List (Option ℚ)) : Option ℚ :=
  match l.filterMap id with
  | [] => none
  | x :: xs => some (xs.foldl max x)

/-- `min` aggregation over the non-NaN values. -/
def minSome (l : List (Option ℚ)) : Option ℚ :=
  match l.filterMap id with
  | [] => none
  | x :: xs => some (xs.foldl min x)

/-- `sum` aggregation (pandas sums an all-NaN/empty bucket to 0). -/
def sumSome (l : List (Option ℚ)) : ℚ := (l.filterMap id).sum

/-- `df_1m.sort_index()`: stable sort by timestamp. -/
def sortBars (rows : List Bar1m) : List Bar1m :=
  rows.mergeSort (fun a b => decide (a.t ≤ b.t))

/-- The `resample("1h", label="right", closed="right").agg(...).dropna()`
pipeline: bars are grouped into right-closed hour buckets; the aggregated row
survives only if every OHLC aggregate is non-NaN (`dropna`), and only
non-empty buckets can survive, so the inner empty buckets pandas generates
are dropped either way. -/
def resampleHourly (rows : List Bar1m) : List HourBar :=
  let sorted := sortBars rows
  ((sorted.map (fun r => hourOf r.t)).dedup).filterMap (fun h =>
    let bucket := sorted.filter (fun r => hourOf r.t == h)
    match firstSome (bucket.map (·.mOpen)), maxSome (bucket.map (·.mHigh)),
          minSome (bucket.map (·.mLow)), lastSome (bucket.map (·.mClose)) with
    | some o, some hi, some lo, some c =>
        some ⟨60 * h, o, hi, lo, c, sumSome (bucket.map (·.mVol))⟩
    | _, _, _, _ => none)

/-- Recursion of `adjust=False` exponential smoothing:
`out[i] = α·x[i] + (1-α)·out[i-1]`. -/
def emaGo (a : ℚ) (prev : ℚ) : List ℚ → List ℚ
  | [] => []
  | x :: xs =>
      let y := a * x + (1 - a) * prev
      y :: emaGo a y xs

/-- `_ema_series` / `_ema_array`: `ewm(span, adjust=False).mean()` with
`α = 2/(span+1)` seeded at the first element. -/
def emaSeries (span : ℕ) : List ℚ → List ℚ
  | [] => []
  | x :: xs => x :: emaGo ((2 : ℚ) / ((span : ℚ) + 1)) x xs

/-- `_ema200_slope_bps_per_hour` at the call site's arguments
(`interval_minutes=30`, `span=200`, so the length guard is
`max(5, 200 // 4) = 50`): slope of the EMA200 over the last
`w = min(5, n-1)` points (`y1 = ema.iloc[-w]`, `y2 = ema.iloc[-1]`),
converted to basis points per hour. -/
def emaSlopeBpsPerHour (closes : List ℚ) : ℚ :=
  if closes.length < 50 then 0
  else
    let ema := emaSeries 200 closes
    if ema.length < 3 then 0
    else
      let w := min 5 (ema.length - 1)
      let y1 := (ema.drop (ema.length - w)).headD 0
      let y2 := ema.getLastD 0
      if y1 ≤ 0 then 0
      else
        let hours := ((w : ℚ) - 1) * (30 / 60)
        if hours ≤ 0 then 0 else (y2 - y1) / y1 / hours * 10000

/-- Recursion of `_wilder` past the seed:
`out[i] = out[i-1] - out[i-1]/14 + x[i]`. -/
def wilderGo (prev : ℚ) : List ℚ → List ℚ
  | [] => []
  | x :: xs =>
      let y := prev - prev / 14 + x
      y :: wilderGo y xs

/-- `_wilder` (n = 14): too-short input gives `[]`; otherwise the seed is the
sum of the first 14 values, followed by the smoothed tail; the final
`out[out != 0]` drops every zero entry of the full array (the 13 pre-window
zeros and any interior exact zero). -/
def wilder (x : List ℚ) : List ℚ :=
  if x.length < 14 then []
  else
    let seed := (x.take 14).sum
    ((List.replicate 13 (0 : ℚ)) ++ seed :: wilderGo seed (x.drop 14)).filter (· ≠ 0)

/-- Per-step `+DM` / `-DM` / true range of `_adx14_hourly`, aligned with the
`[1:]` slices of the source (one entry per consecutive bar pair). -/
structure DmTr where
  plusDM : ℚ
  minusDM : ℚ
  tr : ℚ
deriving Repr, DecidableEq

/-- The directional-movement and true-range steps over consecutive bars. -/
def dmTrSteps (bars : List HourBar) : List DmTr :=
  (bars.zip (bars.drop 1)).map (fun pc =>
    let up := pc.2.hHigh - pc.1.hHigh
    let down := pc.1.hLow - pc.2.hLow
    ⟨if down < up ∧ 0 < up then up else 0,
     if up < down ∧ 0 < down then down else 0,
     max (pc.2.hHigh - pc.2.hLow)
       (max |pc.2.hHigh - pc.1.hClose| |pc.2.hLow - pc.1.hClose|)⟩)

/-- Elementwise combination of two 1-D arrays under numpy broadcasting:
equal lengths combine pointwise, a length-1 operand is repeated, and any
other length mismatch raises
(`ValueError: operands could not be broadcast together`). -/
def bcastZip (f : ℚ → ℚ → ℚ) (xs ys : List ℚ) : Except Unit (List ℚ) :=
  if xs.length = ys.length then .ok (List.zipWith f xs ys)
  else if xs.length = 1 then .ok (ys.map (f (xs.headD 0)))
  else if ys.length = 1 then .ok (xs.map (fun x => f x (ys.headD 0)))
  else .error ()

/-- `_adx14_hourly`: latest ADX(14) of the hourly bars; `.ok none` when not
computable, `.error ()` when the `_wilder`-smoothed arrays have
non-broadcastable lengths (possible because `out[out != 0]` drops zero
entries, e.g. an all-zero `+DM` series smooths to an empty array) and the
numpy elementwise arithmetic raises; the exception is not caught anywhere in
`detect_regime_from_1m`. -/
def adx14Hourly (bars : List HourBar) : Except Unit (Option ℚ) :=
  if bars.length < 16 then .ok none
  else
    let steps := dmTrSteps bars
    let trS := wilder (steps.map (·.tr))
    if trS.isEmpty then .ok none
    else
      let pdmS := wilder (steps.map (·.plusDM))
      let mdmS := wilder (steps.map (·.minusDM))
      match bcastZip (fun p t => 100 * (p / max t (1/1000000000000))) pdmS trS,
            bcastZip (fun m t => 100 * (m / max t (1/1000000000000))) mdmS trS with
      | .ok pdi, .ok mdi =>
          match bcastZip (fun a b => 100 * |a - b| / max (a + b) (1/1000000000000))
              pdi mdi with
          | .ok dx =>
              if dx.length < 14 then .ok none
              else .ok ((emaSeries 14 dx).getLast?)
          | .error _ => .error ()
      | _, _ => .error ()

/-- The `_read_thresholds` values used by the detector
(`EMA_SLOPE_BPS_PER_HR_MIN`, `ADX_TREND_MIN`, `REGIME_MIN_HOURS`). -/
structure RegimeThresholds where
  slope_min : ℚ
  adx_min : ℚ
  min_hours : ℚ
deriving Repr, DecidableEq

/-- Default thresholds: slope ≥ 2 bps/hr, ADX ≥ 18, history ≥ 36 h. -/
def defaultThresholds : RegimeThresholds := ⟨2, 18, 36⟩

/-- Output record of `detect_regime_from_1m`.  The two early returns of the
source carry only `label` and `why`; the remaining fields are filled with
inert defaults there (`why = none` on the full path). -/
structure RegimeOutput where
  label : String
  why : Option String
  ema50 : Option ℚ
  ema200 : Option ℚ
  slope_bps_hr : ℚ
  adx14_h : Option ℚ
  trending : Bool
  history_hours : ℕ
  short_history : Bool
deriving Repr, DecidableEq

/-- `has_adx`: an ADX value exists and reaches the trend threshold. -/
def adxOk (th : RegimeThresholds) (adx : Option ℚ) : Bool :=
  match adx with
  | none => false
  | some a => decide (th.adx_min ≤ a)

/-- The directional-label block of the detector: bull/bear only when
`trending` and the slope sign agrees with the EMA50/EMA200 cross; the
conflicting case falls through to chop. -/
def regimeLabel (trending : Bool) (slope e50last e200last : ℚ) : String :=
  if trending then
    if 0 < slope ∧ e200last < e50last then "bull"
    else if slope < 0 ∧ e50last < e200last then "bear"
    else "chop"
  else "chop"

/-- `detect_regime_from_1m` (guardrails_regime.py 120–193): resample to
hourly bars, EMA50/EMA200, EMA200 slope in bps/hr, hourly ADX(14);
`trending` needs slope and ADX above threshold and enough history; the label
is bull/bear only when the slope sign agrees with the EMA50/EMA200 cross,
otherwise chop.  `.error ()` propagates the uncaught numpy broadcast
exception from `_adx14_hourly`. -/
def detectRegimeFrom1m (th : RegimeThresholds) (rows : List Bar1m) :
    Except Unit RegimeOutput :=
  if rows.isEmpty then
    .ok ⟨"chop", some "no_data", none, none, 0, none, false, 0, true⟩
  else
    let hourly := resampleHourly rows
    if hourly.isEmpty then
      .ok ⟨"chop", some "no_hourly_data", none, none, 0, none, false, 0, true⟩
    else
      match adx14Hourly hourly with
      | .error _ => .error ()
      | .ok adx =>
          let closes := hourly.map (·.hClose)
          let e50 := emaSeries 50 closes
          let e200 := emaSeries 200 closes
          let slope := emaSlopeBpsPerHour closes
          let shortHist := decide ((hourly.length : ℚ) < th.min_hours)
          let trending := decide (th.slope_min ≤ |slope|) && adxOk th adx && !shortHist
          .ok ⟨regimeLabel trending slope (e50.getLastD 0) (e200.getLastD 0),
               none, e50.getLast?, e200.getLast?, slope, adx, trending,
               hourly.length, shortHist⟩

/-- One bar of the C7 counterexample series: equal OHLC at one price, no
volume cell. -/
def fallRow (t : ℤ) (c : ℚ) : Bar1m := ⟨t, some c, some c, some c, some c, none⟩

/-- Sixteen strictly falling hourly-spaced 1-minute bars: every `+DM` step is
zero, so `_wilder` smooths the `+DM` series to an empty array while the
true-range series stays non-empty — the numpy division then raises. -/
def fallRows : List Bar1m :=
  [fallRow 60 100, fallRow 120 99, fallRow 180 98, fallRow 240 97,
   fallRow 300 96, fallRow 360 95, fallRow 420 94, fallRow 480 93,
   fallRow 540 92, fallRow 600 91, fallRow 660 90, fallRow 720 89,
   fallRow 780 88, fallRow 840 87, fallRow 900 86, fallRow 960 85]

/-- One resampled bar of the counterexample series. -/
def fallBar (h : ℤ) (c : ℚ) : HourBar := ⟨60 * h, c, c, c, c, 0⟩

/-- The sixteen hourly bars the counterexample series resamples to. -/
def fallBars : List HourBar :=
  [fallBar 1 100, fallBar 2 99, fallBar 3 98, fallBar 4 97,
   fallBar 5 96, fallBar 6 95, fallBar 7 94, fallBar 8 93,
   fallBar 9 92, fallBar 10 91, fallBar 11 90, fallBar 12 89,
   fallBar 13 88, fallBar 14 87, fallBar 15 86, fallBar 16 85]

-- ===================== Theorems =====================

/-- Auxiliary: one `paper_fill` call keeps `cash ≥ -1e-8` and `btc ≥ -1e-12`
when the request has non-negative price/quantity and a fee rate in
`[0, 10000]` bps. -/
theorem paperFill_state_bounds (side reason note : String) (ts : ℤ)
    (price qty fee_bps : ℚ) (st : PState) (log : List TradeRec)
    (hc : -epsUsd ≤ st.cash_usd) (hb : -epsBtc ≤ st.btc)
    (hp : 0 ≤ price) (hq : 0 ≤ qty) (_hf0 : 0 ≤ fee_bps) (hf1 : fee_bps ≤ 10000) :
    -epsUsd ≤ (paperFill side reason price qty fee_bps note ts st log).state.cash_usd ∧
    -epsBtc ≤ (paperFill side reason price qty fee_bps note ts st log).state.btc := by
  have hnot : 0 ≤ price * qty := mul_nonneg hp hq
  have hfee1 : 0 ≤ 1 - fee_bps / 10000 := by linarith
  have hkeep : 0 ≤ price * qty * (1 - fee_bps / 10000) := mul_nonneg hnot hfee1
  unfold paperFill
  split
  · split
    · exact ⟨hc, hb⟩
    · rename_i hge
      push_neg at hge
      refine ⟨by simpa using by linarith, by simpa using by linarith⟩
  · split
    · split
      · exact ⟨hc, hb⟩
      · rename_i hge
        push_neg at hge
        refine ⟨by simpa using by nlinarith, by simpa using by linarith⟩
    · exact ⟨hc, hb⟩

/-- Auxiliary: `applyTrades` preserves the epsilon-bounded sign invariants for
any list of in-domain trade requests. -/
theorem applyTrades_bounds (trades : List Trade) (s : PState)
    (hc : -epsUsd ≤ s.cash_usd) (hb : -epsBtc ≤ s.btc)
    (hdom : ∀ t ∈ trades, 0 ≤ t.price ∧ 0 ≤ t.qty ∧ 0 ≤ t.fee_bps ∧ t.fee_bps ≤ 10000) :
    -epsUsd ≤ (applyTrades s trades).cash_usd ∧ -epsBtc ≤ (applyTrades s trades).btc := by
  induction trades generalizing s with
  | nil => exact ⟨hc, hb⟩
  | cons t ts ih =>
      have hdomt := hdom t (by simp)
      have hstep := paperFill_state_bounds t.side "LLM" "" 0 t.price t.qty t.fee_bps s []
        hc hb hdomt.1 hdomt.2.1 hdomt.2.2.1 hdomt.2.2.2
      have : applyTrades s (t :: ts) =
          applyTrades (paperFill t.side "LLM" t.price t.qty t.fee_bps "" 0 s []).state ts := by
        simp [applyTrades]
      rw [this]
      exact ih _ hstep.1 hstep.2 (fun u hu => hdom u (by simp [hu]))

/-- C1: `paper_fill` fails a BUY with the insufficient-cash result exactly when
`cash + 1e-8 < notional + fee`, otherwise debits `notional + fee` and credits
`qty` BTC; fails a SELL with the insufficient-position result exactly when
`btc + 1e-12 < qty`, otherwise debits `qty` BTC and credits `notional - fee`;
and on every failure the portfolio state and the trade log are unchanged. -/
theorem paperFill_apply_spec (side reason note : String) (ts : ℤ)
    (price qty fee_bps : ℚ) (s : PState) (log : List TradeRec) :
    (strLower side = "buy" →
      paperFill side reason price qty fee_bps note ts s log =
        if s.cash_usd + epsUsd < price * qty + price * qty * (fee_bps / 10000) then
          ⟨.fail "Insufficient cash", s, log⟩
        else
          ⟨.ok ⟨ts, "buy", strUpper (strTrim reason), price, qty,
                price * qty * (fee_bps / 10000), note⟩,
           { s with
               cash_usd := s.cash_usd - (price * qty + price * qty * (fee_bps / 10000)),
               btc := s.btc + qty },
           log ++ [⟨ts, "buy", strUpper (strTrim reason), price, qty,
                    price * qty * (fee_bps / 10000), note⟩]⟩) ∧
    (strLower side = "sell" →
      paperFill side reason price qty fee_bps note ts s log =
        if s.btc + epsBtc < qty then
          ⟨.fail "Insufficient BTC", s, log⟩
        else
          ⟨.ok ⟨ts, "sell", strUpper (strTrim reason), price, qty,
                price * qty * (fee_bps / 10000), note⟩,
           { s with
               btc := s.btc - qty,
               cash_usd := s.cash_usd + (price * qty - price * qty * (fee_bps / 10000)) },
           log ++ [⟨ts, "sell", strUpper (strTrim reason), price, qty,
                    price * qty * (fee_bps / 10000), note⟩]⟩) ∧
    (∀ msg, (paperFill side reason price qty fee_bps note ts s log).result = .fail msg →
      (paperFill side reason price qty fee_bps note ts s log).state = s ∧
      (paperFill side reason price qty fee_bps note ts s log).log = log) := by
  refine ⟨?_, ?_, ?_⟩
  · intro h
    simp only [paperFill, h]
    norm_num
  · intro h
    have hne : ¬("sell" = "buy") := by decide
    simp only [paperFill, h, hne, if_false]
    norm_num
  · intro msg
    unfold paperFill
    split
    · split
      · intro _; exact ⟨rfl, rfl⟩
      · intro hcontr; exact absurd hcontr (by simp)
    · split
      · split
        · intro _; exact ⟨rfl, rfl⟩
        · intro hcontr; exact absurd hcontr (by simp)
      · intro _; exact ⟨rfl, rfl⟩

/-- Witness for C1 at a failing concrete BUY: `cash = 10` cannot afford a
`20000 × 1` BUY, and state and log come back unchanged. -/
theorem paperFill_apply_spec_witness :
    (paperFill "BUY" "LLM" 20000 1 10 "" 0 ⟨10, 0, none, none, 0, none, none, none⟩ []).state =
      ⟨10, 0, none, none, 0, none, none, none⟩ ∧
    (paperFill "BUY" "LLM" 20000 1 10 "" 0 ⟨10, 0, none, none, 0, none, none, none⟩ []).log = [] :=
  (paperFill_apply_spec "BUY" "LLM" "" 0 20000 1 10
    ⟨10, 0, none, none, 0, none, none, none⟩ []).2.2 "Insufficient cash" (by
      unfold paperFill
      rw [show strLower "BUY" = "buy" from rfl]
      rw [if_pos rfl, if_pos (by norm_num [epsUsd])])

/-- C2: starting from a non-negative state, any sequence of in-domain trade
requests applied through `paper_fill` keeps `cash ≥ -1e-8` and `btc ≥ -1e-12`
after every prefix; and every accepted fill changes mark-to-market equity at
the trade price by exactly `-fee`. -/
theorem ledger_conservation_equity (s : PState) (trades : List Trade)
    (hc : 0 ≤ s.cash_usd) (hb : 0 ≤ s.btc)
    (hdom : ∀ t ∈ trades, 0 ≤ t.price ∧ 0 ≤ t.qty ∧ 0 ≤ t.fee_bps ∧ t.fee_bps ≤ 10000) :
    (∀ n, -epsUsd ≤ (applyTrades s (trades.take n)).cash_usd ∧
          -epsBtc ≤ (applyTrades s (trades.take n)).btc) ∧
    (∀ (side reason note : String) (ts : ℤ) (price qty fee_bps : ℚ)
       (st : PState) (log : List TradeRec),
       (paperFill side reason price qty fee_bps note ts st log).result.isOk = true →
       equity (paperFill side reason price qty fee_bps note ts st log).state price =
         equity st price - price * qty * (fee_bps / 10000)) := by
  constructor
  · intro n
    refine applyTrades_bounds (trades.take n) s ?_ ?_ ?_
    · have h1 : (0:ℚ) < epsUsd := by norm_num [epsUsd]
      linarith
    · have h2 : (0:ℚ) < epsBtc := by norm_num [epsBtc]
      linarith
    · exact fun t ht => hdom t ((List.take_sublist n trades).subset ht)
  · intro side reason note ts price qty fee_bps st log hok
    by_cases h1 : strLower side = "buy"
    · by_cases h2 : st.cash_usd + epsUsd < price * qty + price * qty * (fee_bps / 10000)
      · simp [paperFill, h1, h2, FillResult.isOk] at hok
      · simp [paperFill, h1, h2, equity]; ring
    · by_cases h3 : strLower side = "sell"
      · by_cases h4 : st.btc + epsBtc < qty
        · simp [paperFill, h1, h3, h4, FillResult.isOk] at hok
        · simp [paperFill, h1, h3, h4, equity]; ring
      · simp [paperFill, h1, h3, FillResult.isOk] at hok

/-- Witness for C2 on a concrete one-trade sequence from the default state. -/
theorem ledger_conservation_equity_witness :
    -epsUsd ≤ (applyTrades defaultState (List.take 1 [(⟨"buy", 100, 1, 10⟩ : Trade)])).cash_usd ∧
    -epsBtc ≤ (applyTrades defaultState (List.take 1 [(⟨"buy", 100, 1, 10⟩ : Trade)])).btc :=
  (ledger_conservation_equity defaultState [⟨"buy", 100, 1, 10⟩]
    (by norm_num [defaultState]) (by norm_num [defaultState])
    (by intro t ht; simp only [List.mem_singleton] at ht; subst ht; norm_num)).1 1

/-- C4: inside the adaptive cooldown, with side switching allowed, a recorded
last side/confidence, and every other gate check passing, `allow_trade`
accepts iff the side differs from the last side and the new confidence is at
least `last_conf + 0.10` (so exactly `+0.10` passes and anything smaller
fails). -/
theorem allowTrade_flip_hysteresis (ctx : GateContext) (side : String)
    (conf notional lastTs lc : ℚ) (ls : String)
    (hconf : ctx.min_conf ≤ conf)
    (hpos : ¬(side = "buy" ∧ ctx.max_position_usd ≤ ctx.position_usd))
    (hspread : spreadTooWide ctx = false)
    (hlast : ctx.last_ts = some lastTs)
    (hcool : max 0 (ctx.now_ts - lastTs) < ((adaptiveCooldownSec ctx.atr : ℤ) : ℚ))
    (hswitch : ctx.allow_side_switch = true)
    (hside : ctx.last_side = some ls)
    (hlc : ctx.last_conf = some lc) :
    (allowTrade ctx side conf notional).1 = true ↔ (side ≠ ls ∧ lc + 1/10 ≤ conf) := by
  unfold allowTrade
  rw [if_neg (not_lt.mpr hconf), if_neg hpos, hspread, hlast]
  simp only [Bool.false_eq_true, if_false]
  rw [if_pos hcool]
  unfold flipEscape
  rw [hswitch, hside, hlc]
  simp only [Option.getD_some]
  by_cases h1 : ls = side
  · simp [h1]
  · by_cases h2 : lc + 1/10 ≤ conf <;>
      simp [h1, h2, fun hh => h1 (Eq.symm hh)] <;>
      (split <;> simp_all <;> exact fun hh => h1 hh.symm)

/-- Witness for C4: with last BUY at confidence 0.60 inside a 20 s cooldown,
a SELL at exactly 0.70 is accepted and a SELL at 0.699999 is rejected. -/
theorem allowTrade_flip_hysteresis_witness :
    (allowTrade gateCtxExample "sell" (7/10) 50).1 = true ∧
    (allowTrade gateCtxExample "sell" (699999/1000000) 50).1 = false := by
  constructor
  · exact (allowTrade_flip_hysteresis gateCtxExample "sell" (7/10) 50 95 (3/5) "buy"
      (by norm_num [gateCtxExample]) (by simp [gateCtxExample]) rfl rfl
      (by norm_num [gateCtxExample, adaptiveCooldownSec]) rfl rfl rfl).mpr
      ⟨by simp, by norm_num⟩
  · have h := allowTrade_flip_hysteresis gateCtxExample "sell" (699999/1000000) 50 95 (3/5) "buy"
      (by norm_num [gateCtxExample]) (by simp [gateCtxExample]) rfl rfl
      (by norm_num [gateCtxExample, adaptiveCooldownSec]) rfl rfl rfl
    cases hb : (allowTrade gateCtxExample "sell" (699999/1000000) 50).1 with
    | false => rfl
    | true => exact absurd (h.mp hb).2 (by norm_num)

/-- C6 counterexample: at ATR = 11 the code returns `int(5.5) = 5`, which is
not the claimed `clamp(atr/2, 5, 60) = 5.5`. -/
theorem adaptiveCooldown_counterexample :
    ((adaptiveCooldownSec (some 11) : ℤ) : ℚ) ≠ max 5 (min 60 ((11 : ℚ) / 2)) := by
  norm_num [adaptiveCooldownSec]

/-- C6 amended: for every positive ATR the adaptive cooldown equals the
integer floor of `clamp(atr/2, 5, 60)` seconds. -/
theorem adaptiveCooldown_floor_clamp (a : ℚ) (ha : 0 < a) :
    adaptiveCooldownSec (some a) = ⌊max 5 (min 60 (a / 2))⌋ := by
  simp [adaptiveCooldownSec, ha.ne']

/-- Witness for the amended C6 at ATR = 30 (cooldown 15 s). -/
theorem adaptiveCooldown_floor_clamp_witness :
    adaptiveCooldownSec (some 30) = ⌊max 5 (min 60 ((30 : ℚ) / 2))⌋ :=
  adaptiveCooldown_floor_clamp 30 (by norm_num)

/-- C8: `build_order` sizes with the clamped confidence multiplier
(`0.45 ↦ 0.2`, `1.00 ↦ 1.0`, clamped beyond), clamps `size_usd` into
`[10, max_trade]`, and attaches ATR stops (BUY `price ∓ 1.2/1.8·ATR`, other
sides mirrored), with fallback ATR 50 when missing or not positive. -/
theorem buildOrder_spec (side : String) (price conf : ℚ) (atr : Option ℚ)
    (maxTrade : ℚ) :
    (buildOrder side price conf atr maxTrade).size_usd
        = clamp 10 maxTrade (confMult conf * maxTrade) ∧
    confMult conf = clamp (1/5) 1 ((conf - 9/20) / (11/20)) ∧
    (conf ≤ 9/20 → confMult conf = 1/5) ∧
    (1 ≤ conf → confMult conf = 1) ∧
    (side = "buy" →
      (buildOrder side price conf atr maxTrade).stop = price - 6/5 * fallbackAtr atr ∧
      (buildOrder side price conf atr maxTrade).take_profit = price + 9/5 * fallbackAtr atr) ∧
    (side ≠ "buy" →
      (buildOrder side price conf atr maxTrade).stop = price + 6/5 * fallbackAtr atr ∧
      (buildOrder side price conf atr maxTrade).take_profit = price - 9/5 * fallbackAtr atr) ∧
    fallbackAtr none = 50 ∧ fallbackAtr (some 0) = 50 ∧
    (∀ x : ℚ, 0 < x → fallbackAtr (some x) = x) := by
  refine ⟨?_, rfl, ?_, ?_, ?_, ?_, rfl, by norm_num [fallbackAtr], ?_⟩
  · unfold buildOrder clamp confMult
    by_cases h : side = "buy" <;> simp [h]
  · intro h
    have hx : (conf - 9/20) / (11/20) ≤ 0 :=
      div_nonpos_iff.mpr (Or.inr ⟨by linarith, by norm_num⟩)
    unfold confMult
    rw [min_eq_right (le_trans hx (by norm_num)), max_eq_left (le_trans hx (by norm_num))]
  · intro h
    have hx : (1 : ℚ) ≤ (conf - 9/20) / (11/20) := by
      rw [le_div_iff₀ (by norm_num)]
      linarith
    unfold confMult
    rw [min_eq_left hx, max_eq_right (by norm_num)]
  · intro h
    unfold buildOrder
    rw [if_pos h]
    exact ⟨rfl, rfl⟩
  · intro h
    unfold buildOrder
    rw [if_neg h]
    exact ⟨rfl, rfl⟩
  · intro x hx
    simp [fallbackAtr, hx]

/-- Witness for C8: multiplier endpoints, a BUY stop and a SELL stop at
concrete inputs. -/
theorem buildOrder_spec_witness :
    confMult (2/5) = 1/5 ∧ confMult 1 = 1 ∧
    (buildOrder "buy" 50000 (9/10) (some 100) 50).stop
        = 50000 - 6/5 * fallbackAtr (some 100) ∧
    (buildOrder "sell" 50000 (9/10) none 50).stop
        = 50000 + 6/5 * fallbackAtr none :=
  ⟨(buildOrder_spec "buy" 0 (2/5) none 0).2.2.1 (by norm_num),
   (buildOrder_spec "buy" 0 1 none 0).2.2.2.1 (by norm_num),
   ((buildOrder_spec "buy" 50000 (9/10) (some 100) 50).2.2.2.2.1 rfl).1,
   ((buildOrder_spec "sell" 50000 (9/10) none 50).2.2.2.2.2.1 (by simp)).1⟩

/-- C5 counterexample: a bull-regime SELL with confidence 0.5 — below the
claimed bull-sell threshold 0.80 — is passed by `regime_gate`, refuting the
claimed regime/side threshold table. -/
theorem regimeGate_counterexample :
    (regimeGate defaultChopEnv "sell" (1/2) "bull" none).1 = true ∧ (1 : ℚ)/2 < 4/5 :=
  ⟨rfl, by norm_num⟩

/-- C5 amended: `regime_gate` blocks only the chop+BUY combination — hard by
default, or, when the chop soft-override is enabled, passing iff the RSI is
unreadable or ≤ rsi_max and confidence ≥ conf_min; every other regime/side
pair passes regardless of confidence. -/
theorem regimeGate_spec (env : ChopEnv) (action : String) (confidence : ℚ)
    (label : String) (rsi : Option ℚ) :
    (regimeGate env action confidence label rsi).1 = true ↔
      (¬(label = "chop" ∧ strUpper action = "BUY") ∨
        (env.allow_buy = true ∧ chopRsiOk rsi env.rsi_max = true ∧
          env.conf_min ≤ confidence)) := by
  unfold regimeGate
  by_cases h1 : label = "chop" ∧ strUpper action = "BUY"
  · rw [if_pos h1]
    by_cases h2 : env.allow_buy = true
    · rw [if_pos h2]
      by_cases h3 : chopRsiOk rsi env.rsi_max = true ∧ env.conf_min ≤ confidence
      · rw [if_pos h3]
        simp [h1, h2, h3]
      · rw [if_neg h3]
        simp [h1, h2, h3]
    · rw [if_neg h2]
      simp [h1, h2]
  · rw [if_neg h1]
    simp [h1]

/-- C9 counterexample: the garbage bytes `[]` parse as valid JSON, so
`load_state` returns the empty array as-is — not the documented default
state — refuting "arbitrary garbage bytes → default state". -/
theorem loadState_counterexample :
    loadState (.parsed (.list [])) = .list [] ∧
      PyVal.list [] ≠ defaultStateJson :=
  ⟨rfl, fun h => PyVal.noConfusion h⟩

/-- C9 amended: `load_state` never raises; it returns the documented default
state — cash 10000, btc 0, all counters and markers cleared — exactly when
the persisted file is absent or its bytes fail JSON parsing; content that
parses as any JSON value (including non-state garbage such as `[]` or `42`)
is returned as-is without validation. -/
theorem loadState_spec (f : StateFile) :
    ((f = .absent ∨ f = .garbage) → loadState f = defaultStateJson) ∧
    (∀ v, f = .parsed v → loadState f = v) := by
  constructor
  · rintro (h | h) <;> subst h <;> rfl
  · intro v h
    subst h
    rfl

/-- Witness for the amended C9 at the unparseable-content file. -/
theorem loadState_spec_witness :
    loadState .garbage = defaultStateJson :=
  (loadState_spec .garbage).1 (Or.inr rfl)

/-- C10: with no DCA anchor (`last_dca_price` missing/null/zero) and no
parseable `last_dca_ts`, any positive price and positive configured lot yield
exactly one BUY intent of `lot_usd / price` BTC, regardless of the configured
drop percentage — the first-ever DCA buy always fires. -/
theorem dcaActions_first_buy (st : PState) (price now : ℚ) (cfg : DcaCfg)
    (_hp : 0 < price) (hlot : 0 < cfg.lot_usd)
    (hanchor : st.last_dca_price = none ∨ st.last_dca_price = some 0)
    (hts : st.last_dca_ts = none) :
    dcaActions st price cfg now = [⟨"BUY", cfg.lot_usd / price, cfg.lot_usd⟩] := by
  have hdrop : dropHit st price cfg.drop_pct = true := by
    rcases hanchor with h | h <;> simp [dropHit, h]
  have hcool : cooldownOk st now cfg.min_cooldown_min = true := by
    simp [cooldownOk, hts]
  unfold dcaActions
  rw [hdrop, hcool]
  simp [hlot]

/-- Witness for C10: default state, price 100, lot 50 yields one 0.5 BTC BUY. -/
theorem dcaActions_first_buy_witness :
    dcaActions defaultState 100 ⟨3, 60, 50⟩ 0 = [⟨"BUY", 50 / 100, 50⟩] :=
  dcaActions_first_buy defaultState 100 0 ⟨3, 60, 50⟩ (by norm_num) (by norm_num)
    (Or.inl rfl) rfl

/-- Auxiliary: the RSI-derived state is always one of the three enum values. -/
theorem stateFromRsi_mem (rsi : ℚ) :
    stateFromRsi rsi = "peak" ∨ stateFromRsi rsi = "dip" ∨
      stateFromRsi rsi = "consolidation" := by
  unfold stateFromRsi
  split
  · simp
  · split <;> simp

/-- Auxiliary: the coerced state is always one of the three enum values. -/
theorem coerceState_mem (kvs : List (String × PyVal)) (rsi : ℚ) :
    coerceState kvs rsi = "peak" ∨ coerceState kvs rsi = "dip" ∨
      coerceState kvs rsi = "consolidation" := by
  unfold coerceState
  split
  · split
    · rename_i h; exact h
    · exact stateFromRsi_mem rsi
  · exact stateFromRsi_mem rsi

/-- Auxiliary: the action fallback is always one of the three action values. -/
theorem defaultAction_mem (st : String) :
    defaultAction st = "buy" ∨ defaultAction st = "sell" ∨ defaultAction st = "hold" := by
  unfold defaultAction
  split
  · simp
  · split <;> simp

/-- Auxiliary: the coerced action is always one of the three action values. -/
theorem coerceAction_mem (kvs : List (String × PyVal)) (st : String) :
    coerceAction kvs st = "buy" ∨ coerceAction kvs st = "sell" ∨
      coerceAction kvs st = "hold" := by
  unfold coerceAction
  split
  · split
    · rename_i h; exact h
    · exact defaultAction_mem st
  · exact defaultAction_mem st

/-- Auxiliary: the coerced confidence lands in `[0, 1]`. -/
theorem coerceConfidence_bounds (kvs : List (String × PyVal)) (st : String) :
    0 ≤ coerceConfidence kvs st ∧ coerceConfidence kvs st ≤ 1 := by
  unfold coerceConfidence
  exact ⟨le_max_left 0 _, max_le (by norm_num) (min_le_left _ _)⟩

/-- C3 counterexample: a non-dict raw decision makes `coerce_to_schema`
return `None` (advisor.py line 29), contradicting "never returns null for any
input including non-dict input". -/
theorem coerceToSchema_counterexample :
    coerceToSchema (.str "free-form llm text") 300 (13/10) 50 = .ok .none := rfl

/-- C3 amended: for dict input whose `size_usd` is absent or numeric, whose
`stop_atr_k` is absent, numeric or null, whose `reason_short` is absent or a
string, and whose `risk_flags` is absent or a list of strings,
`coerce_to_schema` returns a decision object satisfying the strict schema;
for non-dict input it returns null (and `float(...)` raises on the excluded
non-numeric fields). -/
theorem coerceToSchema_amended (kvs : List (String × PyVal)) (llmSize llmStop rsi : ℚ)
    (hsize : ∀ v, kvs.lookup "size_usd" = some v → (PyVal.asNum v).isSome = true)
    (hstop : ∀ v, kvs.lookup "stop_atr_k" = some v →
      ((PyVal.asNum v).isSome = true ∨ v = .none))
    (hreason : ∀ v, kvs.lookup "reason_short" = some v → isStrB v = true)
    (hflags : ∀ v, kvs.lookup "risk_flags" = some v → checkStrArray (some v) = true) :
    ∃ d, coerceToSchema (.dict kvs) llmSize llmStop rsi = .ok (.dict d) ∧
      decisionSchemaValid (.dict d) = true := by
  obtain ⟨sz, hsz⟩ :
      ∃ q, pyFloat ((kvs.lookup "size_usd").getD (.num llmSize)) = .ok q := by
    cases hv : kvs.lookup "size_usd" with
    | none => exact ⟨llmSize, rfl⟩
    | some v =>
        have hnum := hsize v hv
        cases hnv : v.asNum with
        | none => simp [hnv] at hnum
        | some q => exact ⟨q, by simp [pyFloat, hnv]⟩
  have hstchk : checkState (some (.str (coerceState kvs rsi))) = true := by
    rcases coerceState_mem kvs rsi with h | h | h <;> rw [h] <;> rfl
  have hactchk : checkAction
      (some (.str (coerceAction kvs (coerceState kvs rsi)))) = true := by
    rcases coerceAction_mem kvs (coerceState kvs rsi) with h | h | h <;> rw [h] <;> rfl
  have hcfchk : checkConfidence
      (some (.num (coerceConfidence kvs (coerceState kvs rsi)))) = true := by
    simp only [checkConfidence, decide_eq_true_eq]
    exact coerceConfidence_bounds kvs (coerceState kvs rsi)
  have hreachk : ∀ st act : String, checkString
      (some ((kvs.lookup "reason_short").getD (.str (st ++ " → " ++ act)))) = true := by
    intro st act
    cases hv : kvs.lookup "reason_short" with
    | none => rfl
    | some v =>
        have := hreason v hv
        cases v <;> simp_all [isStrB, checkString]
  have hflchk : ∀ st : String, checkStrArray
      (some ((kvs.lookup "risk_flags").getD (.list [.str st]))) = true := by
    intro st
    cases hv : kvs.lookup "risk_flags" with
    | none => rfl
    | some v => simpa using hflags v hv
  cases hsv : kvs.lookup "stop_atr_k" with
  | none =>
      refine ⟨[("state", .str (coerceState kvs rsi)),
               ("action", .str (coerceAction kvs (coerceState kvs rsi))),
               ("confidence", .num (coerceConfidence kvs (coerceState kvs rsi))),
               ("size_usd", .num sz), ("stop_atr_k", .num llmStop),
               ("reason_short", (kvs.lookup "reason_short").getD
                 (.str (coerceState kvs rsi ++ " → " ++
                        coerceAction kvs (coerceState kvs rsi)))),
               ("risk_flags", (kvs.lookup "risk_flags").getD
                 (.list [.str (coerceState kvs rsi)]))], ?_, ?_⟩
      · simp only [coerceToSchema, hsv, Option.getD_none, hsz]
        rfl
      · simp [decisionSchemaValid, List.lookup, allowedKeys, hstchk, hactchk, hcfchk,
              hreachk, hflchk, checkNumber, checkNumberOrNull]
  | some v =>
      rcases hstop v hsv with hnum | hvn
      · obtain ⟨skq, hskq⟩ := Option.isSome_iff_exists.mp hnum
        refine ⟨[("state", .str (coerceState kvs rsi)),
                 ("action", .str (coerceAction kvs (coerceState kvs rsi))),
                 ("confidence", .num (coerceConfidence kvs (coerceState kvs rsi))),
                 ("size_usd", .num sz), ("stop_atr_k", .num skq),
                 ("reason_short", (kvs.lookup "reason_short").getD
                   (.str (coerceState kvs rsi ++ " → " ++
                          coerceAction kvs (coerceState kvs rsi)))),
                 ("risk_flags", (kvs.lookup "risk_flags").getD
                   (.list [.str (coerceState kvs rsi)]))], ?_, ?_⟩
        · cases v with
          | num q =>
              simp only [PyVal.asNum, Option.some.injEq] at hskq
              subst hskq
              simp only [coerceToSchema, hsv, Option.getD_some, hsz]
              rfl
          | bool b =>
              simp only [PyVal.asNum, Option.some.injEq] at hskq
              subst hskq
              simp only [coerceToSchema, hsv, Option.getD_some, hsz]
              cases b <;> rfl
          | none => simp [PyVal.asNum] at hskq
          | str s => simp [PyVal.asNum] at hskq
          | list xs => simp [PyVal.asNum] at hskq
          | dict d => simp [PyVal.asNum] at hskq
        · simp [decisionSchemaValid, List.lookup, allowedKeys, hstchk, hactchk, hcfchk,
                hreachk, hflchk, checkNumber, checkNumberOrNull]
      · subst hvn
        refine ⟨[("state", .str (coerceState kvs rsi)),
                 ("action", .str (coerceAction kvs (coerceState kvs rsi))),
                 ("confidence", .num (coerceConfidence kvs (coerceState kvs rsi))),
                 ("size_usd", .num sz), ("stop_atr_k", .none),
                 ("reason_short", (kvs.lookup "reason_short").getD
                   (.str (coerceState kvs rsi ++ " → " ++
                          coerceAction kvs (coerceState kvs rsi)))),
                 ("risk_flags", (kvs.lookup "risk_flags").getD
                   (.list [.str (coerceState kvs rsi)]))], ?_, ?_⟩
        · simp only [coerceToSchema, hsv, Option.getD_some, hsz]
        · simp [decisionSchemaValid, List.lookup, allowedKeys, hstchk, hactchk, hcfchk,
                hreachk, hflchk, checkNumber, checkNumberOrNull]

/-- Witness for the amended C3 at the empty dict: every field is defaulted
into a schema-valid decision. -/
theorem coerceToSchema_amended_witness :
    ∃ d, coerceToSchema (.dict []) 300 (13/10) 50 = .ok (.dict d) ∧
      decisionSchemaValid (.dict d) = true :=
  coerceToSchema_amended [] 300 (13/10) 50
    (fun v h => by simp at h) (fun v h => by simp at h)
    (fun v h => by simp at h) (fun v h => by simp at h)

/-- Auxiliary: an EMA series over a non-empty input is non-empty. -/
theorem emaSeries_ne_nil (span : ℕ) (xs : List ℚ) (h : xs ≠ []) :
    emaSeries span xs ≠ [] := by
  cases xs with
  | nil => exact absurd rfl h
  | cons x t => simp [emaSeries]

/-- Auxiliary: the last element of a non-empty rational list, in
`getLast?`/`getLastD` form. -/
theorem getLast?_of_ne_nil (l : List ℚ) (h : l ≠ []) :
    l.getLast? = some (l.getLastD 0) := by
  obtain ⟨a, ha⟩ := Option.isSome_iff_exists.mp (List.getLast?_isSome.mpr h)
  rw [List.getLastD_eq_getLast?, ha]
  rfl

/-- Auxiliary: full case analysis of the label block. -/
theorem regimeLabel_cases (tr : Bool) (slope a b : ℚ) :
    (regimeLabel tr slope a b = "bull" ↔ (tr = true ∧ 0 < slope ∧ b < a)) ∧
    (regimeLabel tr slope a b = "bear" ↔ (tr = true ∧ slope < 0 ∧ a < b)) ∧
    (regimeLabel tr slope a b = "bull" ∨ regimeLabel tr slope a b = "bear" ∨
      regimeLabel tr slope a b = "chop") := by
  cases tr with
  | false => simp [regimeLabel]
  | true =>
      by_cases h1 : 0 < slope ∧ b < a
      · simp [regimeLabel, h1]
        intro hs
        exact absurd h1.1 (asymm hs)
      · by_cases h2 : slope < 0 ∧ a < b <;> simp [regimeLabel, h1, h2]

/-- C7 counterexample: on sixteen strictly falling hourly bars the `+DM`
series smooths to an empty array while the true-range series does not, the
numpy elementwise division raises a broadcast error, and
`detect_regime_from_1m` propagates the exception instead of producing any
label — refuting the claim's "for every input series" labeling. -/
theorem detectRegime_crash_counterexample :
    detectRegimeFrom1m defaultThresholds fallRows = .error () := by
  have hsort : sortBars fallRows = fallRows :=
    List.mergeSort_of_sorted (by decide)
  have hres : resampleHourly fallRows = fallBars := by
    unfold resampleHourly
    rw [hsort]
    decide
  have hsteps : dmTrSteps fallBars =
      [⟨0, 1, 1⟩, ⟨0, 1, 1⟩, ⟨0, 1, 1⟩, ⟨0, 1, 1⟩, ⟨0, 1, 1⟩,
       ⟨0, 1, 1⟩, ⟨0, 1, 1⟩, ⟨0, 1, 1⟩, ⟨0, 1, 1⟩, ⟨0, 1, 1⟩,
       ⟨0, 1, 1⟩, ⟨0, 1, 1⟩, ⟨0, 1, 1⟩, ⟨0, 1, 1⟩, ⟨0, 1, 1⟩] := by
    norm_num [dmTrSteps, fallBars, fallBar, abs_neg, abs_one, max_self, max_def]
  have hrep : List.replicate 13 (0 : ℚ) = [0, 0, 0, 0, 0, 0, 0, 0, 0, 0, 0, 0, 0] := rfl
  have htr : wilder [(1 : ℚ), 1, 1, 1, 1, 1, 1, 1, 1, 1, 1, 1, 1, 1, 1] = [14, 14] := by
    norm_num [wilder, wilderGo, hrep, List.filter]
  have hpdm : wilder [(0 : ℚ), 0, 0, 0, 0, 0, 0, 0, 0, 0, 0, 0, 0, 0, 0] = [] := by
    norm_num [wilder, wilderGo, hrep, List.filter]
  have hlen : fallBars.length = 16 := rfl
  have hadx : adx14Hourly fallBars = .error () := by
    norm_num [adx14Hourly, hlen, hsteps, htr, hpdm, bcastZip]
  have hne : fallRows.isEmpty = false := rfl
  have hbe : fallBars.isEmpty = false := rfl
  norm_num [detectRegimeFrom1m, hne, hres, hbe, hadx]

/-- C7 amended: whenever the detector returns (does not raise), its label is
"bull" iff trending with positive slope and EMA50 above EMA200, "bear" iff
trending with negative slope and EMA50 below EMA200, and "chop" in every
other case; empty input returns `chop / no_data` and zero surviving hourly
bars return `chop / no_hourly_data`. -/
theorem detectRegime_label_spec (rows : List Bar1m) :
    (∀ r : RegimeOutput, detectRegimeFrom1m defaultThresholds rows = .ok r →
      ((r.label = "bull" ↔ (r.trending = true ∧ 0 < r.slope_bps_hr ∧
         (∃ a b, r.ema50 = some a ∧ r.ema200 = some b ∧ b < a))) ∧
       (r.label = "bear" ↔ (r.trending = true ∧ r.slope_bps_hr < 0 ∧
         (∃ a b, r.ema50 = some a ∧ r.ema200 = some b ∧ a < b))) ∧
       (r.label = "bull" ∨ r.label = "bear" ∨ r.label = "chop"))) ∧
    (rows = [] → detectRegimeFrom1m defaultThresholds rows =
      .ok ⟨"chop", some "no_data", none, none, 0, none, false, 0, true⟩) ∧
    (rows ≠ [] → resampleHourly rows = [] → detectRegimeFrom1m defaultThresholds rows =
      .ok ⟨"chop", some "no_hourly_data", none, none, 0, none, false, 0, true⟩) := by
  by_cases hrows : rows = []
  · subst hrows
    refine ⟨?_, fun _ => rfl, fun h => absurd rfl h⟩
    intro r hr
    rw [show detectRegimeFrom1m defaultThresholds [] =
      .ok ⟨"chop", some "no_data", none, none, 0, none, false, 0, true⟩ from rfl] at hr
    cases hr
    simp
  · have hne : rows.isEmpty = false := by
      cases rows with
      | nil => exact absurd rfl hrows
      | cons a l => rfl
    by_cases hh : resampleHourly rows = []
    · have hhe : (resampleHourly rows).isEmpty = true := by simp [hh]
      refine ⟨?_, fun h => absurd h hrows, fun _ _ => ?_⟩
      · intro r hr
        simp only [detectRegimeFrom1m, hne, Bool.false_eq_true, if_false, hhe,
          if_true, Except.ok.injEq] at hr
        subst hr
        simp
      · simp [detectRegimeFrom1m, hne, hhe]
    · have hhe : (resampleHourly rows).isEmpty = false := by
        cases hcase : resampleHourly rows with
        | nil => exact absurd hcase hh
        | cons a l => rfl
      refine ⟨?_, fun h => absurd h hrows, fun _ h => absurd h hh⟩
      intro r hr
      simp only [detectRegimeFrom1m, hne, hhe, Bool.false_eq_true, if_false] at hr
      cases hadx : adx14Hourly (resampleHourly rows) with
      | error e =>
          rw [hadx] at hr
          simp at hr
      | ok adx =>
          rw [hadx] at hr
          simp only [Except.ok.injEq] at hr
          subst hr
          have hclosene : (resampleHourly rows).map HourBar.hClose ≠ [] := by
            intro hcontr
            rw [List.map_eq_nil_iff] at hcontr
            exact hh hcontr
          have h50 := emaSeries_ne_nil 50 _ hclosene
          have h200 := emaSeries_ne_nil 200 _ hclosene
          rw [getLast?_of_ne_nil _ h50, getLast?_of_ne_nil _ h200]
          have hlab := regimeLabel_cases
            (decide (defaultThresholds.slope_min ≤
                |emaSlopeBpsPerHour ((resampleHourly rows).map HourBar.hClose)|) &&
              adxOk defaultThresholds adx &&
              !decide (((resampleHourly rows).length : ℚ) < defaultThresholds.min_hours))
            (emaSlopeBpsPerHour ((resampleHourly rows).map HourBar.hClose))
            ((emaSeries 50 ((resampleHourly rows).map HourBar.hClose)).getLastD 0)
            ((emaSeries 200 ((resampleHourly rows).map HourBar.hClose)).getLastD 0)
          refine ⟨?_, ?_, ?_⟩
          · simpa using hlab.1
          · simpa using hlab.2.1
          · simpa using hlab.2.2

/-- Witness for the amended C7 at the empty input series. -/
theorem detectRegime_label_spec_witness :
    detectRegimeFrom1m defaultThresholds [] =
      .ok ⟨"chop", some "no_data", none, none, 0, none, false, 0, true⟩ :=
  (detectRegime_label_spec []).2.1 rfl

end BtcAgent
